import Mathlib

/-!
Verification of the MKTools APK inject-and-resign core (electron signer service).

The service's pure logic is shallowly embedded here.  JavaScript strings are
modelled as lists of character codes (`Str := List Nat`, UTF-16 code units);
the external tool boundaries (apktool, unzip/zip, ApkSigReader, ManifestEditor,
zipalign, apksigner) are modelled as environment records carrying each
command's observable outcome, exactly as consumed by the service code.
-/

set_option maxRecDepth 20000

namespace MKTools

/-- JavaScript strings are sequences of code units; manifests and tool output
are ASCII in practice.  We embed them as lists of natural-number codes. -/
abbrev Str := List Nat

/-- Convert a Lean string literal to its code list (used to write the literal
strings appearing in the service source). -/
def str (s : String) : Str := s.toList.map Char.toNat

/-- Character class of the JavaScript regex `\s` (ASCII part, plus NBSP),
as used by `trim` and the `\s*` fragments of the service's regexes. -/
def isWsCode (c : Nat) : Bool :=
  c = 32 || c = 9 || c = 10 || c = 13 || c = 11 || c = 12 || c = 160

/-- JavaScript `String.prototype.trim`. -/
def jsTrim (s : Str) : Str :=
  ((s.dropWhile isWsCode).reverse.dropWhile isWsCode).reverse

/-- ASCII lower-casing of one code unit (JS `toLowerCase` on ASCII input). -/
def toLowerCode (c : Nat) : Nat :=
  if 65 ≤ c ∧ c ≤ 90 then c + 32 else c

/-- ASCII lower-casing of a string (JS `toLowerCase` on ASCII input). -/
def strToLower (s : Str) : Str := s.map toLowerCode

/-- Character class `[0-9a-fA-F]` of the hex-validation regex in
`getCertHexUsingApkSig`. -/
def isHexCode (c : Nat) : Bool :=
  (48 ≤ c && c ≤ 57) || (97 ≤ c && c ≤ 102) || (65 ≤ c && c ≤ 70)

/-- Character class `[0-9a-f]`: a lower-case hex digit. -/
def isLowerHexCode (c : Nat) : Bool :=
  (48 ≤ c && c ≤ 57) || (97 ≤ c && c ≤ 102)

/-- ASCII decimal digit test (`\d` in the service's regexes). -/
def isDigitCode (c : Nat) : Bool := 48 ≤ c && c ≤ 57

/-- Value of a decimal digit string (JS `parseInt(‹digits›, 10)`). -/
def digitsVal (ds : Str) : Nat := ds.foldl (fun a c => 10 * a + (c - 48)) 0

/-- Decimal rendering of a natural number, as a code list (JS template
interpolation of a number). -/
def natToCodes (n : Nat) : Str := (Nat.toDigits 10 n).map Char.toNat

/-- JS `String.prototype.indexOf` for a substring: index of the first occurrence
of `sub` in `s`, if any. -/
def lcIndexOfSub (sub : Str) : Str → Option Nat
  | [] => if sub = [] then some 0 else none
  | c :: rest =>
    if sub.isPrefixOf (c :: rest) then some 0
    else (lcIndexOfSub sub rest).map (· + 1)

/-- JS `String.prototype.includes`. -/
def containsSub (sub s : Str) : Bool := (lcIndexOfSub sub s).isSome

/-- Replace the first occurrence of `sub` in `s` by `repl`
(JS `String.prototype.replace` with a plain-string pattern). -/
def replaceFirst (s sub repl : Str) : Str :=
  match lcIndexOfSub sub s with
  | none => s
  | some i => s.take i ++ repl ++ s.drop (i + sub.length)

/-- Fuel-driven worker for `splitOnSub` (structural recursion on the fuel so
that the definition evaluates inside the kernel). -/
def splitOnSubF (sep : Str) : Nat → Str → List Str
  | 0, s => [s]
  | fuel + 1, s =>
    match lcIndexOfSub sep s with
    | none => [s]
    | some i => s.take i :: splitOnSubF sep fuel (s.drop (i + sep.length))

/-- JS `String.prototype.split` with a non-empty plain-string separator. -/
def splitOnSub (sep s : Str) : List Str := splitOnSubF sep (s.length + 1) s

/-- Last whitespace-separated word of a line, i.e. JS
`line.trim().split(/\s+/)` followed by taking the final element (the file-name
column of `unzip -l` output, signerService.ts lines 151-154). -/
def lastWordOf (line : Str) : Str :=
  ((jsTrim line).reverse.takeWhile (fun c => !isWsCode c)).reverse

/-! ## Attribute regex

The service repeatedly matches regexes of the shape
`‹literal›\s*=\s*["']([^"']+)["']` (for `android:name` and `package`).
`parseAttrValue lit s` runs one anchored match attempt at the start of `s`;
`firstAttr lit s` is the leftmost match, exactly the JS `String.match`
semantics for this backtracking-free pattern (code 61 is `=`, 34 is `"`,
39 is `'`). -/

/-- One anchored attempt of `‹lit›\s*=\s*["']([^"']+)["']` at the head of `s`,
returning the captured group. -/
def parseAttrValue (lit s : Str) : Option Str :=
  if lit.isPrefixOf s then
    match (s.drop lit.length).dropWhile isWsCode with
    | 61 :: s3 =>
      match s3.dropWhile isWsCode with
      | q :: s5 =>
        if q = 34 || q = 39 then
          let v := s5.takeWhile (fun c => !(c = 34 || c = 39))
          match v, s5.drop v.length with
          | [], _ => none
          | _ :: _, q2 :: _ => if q2 = 34 || q2 = 39 then some v else none
          | _ :: _, [] => none
        else none
      | [] => none
    | _ => none
  else none

/-- Leftmost match of the attribute regex: first position of `s` where
`parseAttrValue` succeeds. -/
def firstAttr (lit : Str) : Str → Option Str
  | [] => none
  | c :: rest =>
    match parseAttrValue lit (c :: rest) with
    | some v => some v
    | none => firstAttr lit rest

/-! ## ManifestAnalyzer (signerService.ts lines 506-567) -/

/-- The literal `<application` searched by `extractApplicationName` and by the
textual manifest patch. -/
def appLit : Str := str "<application"

/-- The literal `android:name` of the attribute regexes. -/
def nameLit : Str := str "android:name"

/-- The literal `package` of the package-name regex (line 348). -/
def pkgLit : Str := str "package"

/-- The six alternatives of the stop pattern
`/<activity|<service|<provider|<receiver|<meta-data|<\/application/i`
(line 514), all lower case; the flag `i` makes the search case-insensitive. -/
def stopLits : List Str :=
  [str "<activity", str "<service", str "<provider", str "<receiver",
   str "<meta-data", str "</application"]

/-- Case-insensitive prefix test against one stop literal. -/
def ciPrefix (lit s : Str) : Bool :=
  lit.isPrefixOf ((s.take lit.length).map toLowerCode)

/-- Does one of the six stop alternatives match at the head of `s`? -/
def isStopAt (s : Str) : Bool := stopLits.any (fun l => ciPrefix l s)

/-- Index of the first (leftmost) match of the stop pattern in `s`. -/
def firstStopIndex : Str → Option Nat
  | [] => none
  | c :: rest =>
    if isStopAt (c :: rest) then some 0
    else (firstStopIndex rest).map (· + 1)

/-- The attribute region scanned by `extractApplicationName` (lines 507-519):
the text from the first `<application` up to the first child-element boundary
or closing tag, if any. -/
def appNameArea (content : Str) : Option Str :=
  match lcIndexOfSub appLit content with
  | none => none
  | some appStart =>
    let scanningArea := content.drop appStart
    some (match firstStopIndex scanningArea with
          | some i => scanningArea.take i
          | none => scanningArea)

/-- The exclusion filter of lines 526-529: resource references (`@...`),
framework classes (`android....`) and the stray values `true`/`false` are not
application classes. -/
def excludedName (n : Str) : Bool :=
  (str "@").isPrefixOf n || (str "android.").isPrefixOf n ||
    n = str "true" || n = str "false"

/-- The source `extractApplicationName` (signerService.ts lines 506-535): the declared
`android:name` of the opening `<application ...>` tag, scanning only up to the
first child-element boundary, with default/reference values filtered out. -/
def extractApplicationName (content : Str) : Option Str :=
  match appNameArea content with
  | none => none
  | some area =>
    match firstAttr nameLit area with
    | some name => if excludedName name then none else some name
    | none => none

/-- The source `normalizeClassName` (lines 537-542): a name starting with `.` is
package-relative. -/
def normalizeClassName (className packageName : Str) : Str :=
  if (str ".").isPrefixOf className then packageName ++ className else className

/-- The literal `android.intent.action.MAIN`. -/
def mainLit : Str := str "android.intent.action.MAIN"

/-- The literal `android.intent.category.LAUNCHER`. -/
def launcherLit : Str := str "android.intent.category.LAUNCHER"

/-- Worker of `findLaunchActivity`: first segment containing both intent
literals whose `android:name` regex matches. -/
def firstLaunchName : List Str → Option Str
  | [] => none
  | p :: rest =>
    if containsSub mainLit p && containsSub launcherLit p then
      match firstAttr nameLit p with
      | some n => some n
      | none => firstLaunchName rest
    else firstLaunchName rest

/-- The source `findLaunchActivity` (lines 557-567): split the manifest on `<activity`
and return the `android:name` of the first segment mentioning both the MAIN
action and the LAUNCHER category. -/
def findLaunchActivity (manifestContent : Str) : Option Str :=
  firstLaunchName (splitOnSub (str "<activity") manifestContent)

/-! ## SignatureExtractor (signerService.ts lines 134-195) -/

/-- Hex digit of a nibble, lower case (`Buffer.toString('hex')` digits). -/
def hexDigit (m : Nat) : Nat := if m < 10 then 48 + m else 87 + m

/-- JS Buffer hex rendering: two lower-case digits per byte. -/
def bytesToHex (bs : List Nat) : Str :=
  bs.flatMap (fun b => [hexDigit (b % 256 / 16), hexDigit (b % 16)])

/-- Environment of the signature-extraction step: the observable outcomes of
the external commands it runs.  `none` models a child process that threw. -/
structure SigEnv where
  /-- Result of `fs.existsSync(ApkSigReader.jar)` (line 180) -/
  apkSigReaderExists : Bool
  /-- stdout of `java -jar ApkSigReader.jar ‹apk›` (line 186), `none` = threw -/
  apkSigStdout : Option Str
  /-- stdout of `unzip -l ‹apk›` (line 148), `none` = threw -/
  unzipListOut : Option Str
  /-- did `unzip -p ‹apk› ‹cert› > CERT` and the subsequent read succeed? -/
  unzipExtractOk : Bool
  /-- bytes of the extracted signature file -/
  certBytes : List Nat

/-- Is `name` a legacy signature entry, per lines 155-156:
`META-INF/` prefix and `.RSA`/`.DSA`/`.EC` suffix? -/
def isCertEntry (name : Str) : Bool :=
  name ≠ [] && (str "META-INF/").isPrefixOf name &&
    ((str ".RSA").isSuffixOf name || (str ".DSA").isSuffixOf name ||
      (str ".EC").isSuffixOf name)

/-- The `certFile` loop of lines 150-160: last column of the first `unzip -l`
line naming a legacy signature entry. -/
def findCertFileName (lines : List Str) : Option Str :=
  lines.findSome? (fun line =>
    let fileName := lastWordOf line
    if isCertEntry fileName then some fileName else none)

/-- The source `getCertRsaHex` (signerService.ts lines 143-176): locate the legacy
`META-INF` signature file in the container listing, read it, and render its
bytes as lower-case hex; any failure yields the sentinel `"00"`. -/
def getCertRsaHex (e : SigEnv) : Str :=
  match e.unzipListOut with
  | none => str "00"
  | some out =>
    match findCertFileName (splitOnSub (str "\n") out) with
    | some _ => if e.unzipExtractOk then bytesToHex e.certBytes else str "00"
    | none => str "00"

/-- The source `getCertHexUsingApkSig` (lines 178-195): run the signing-block reader and
accept its trimmed stdout when it is a non-empty `[0-9a-fA-F]+` string,
lower-cased; otherwise the sentinel `"00"`. -/
def getCertHexUsingApkSig (e : SigEnv) : Str :=
  if e.apkSigReaderExists then
    match e.apkSigStdout with
    | some s =>
      let output := jsTrim s
      if output ≠ [] && output.all isHexCode then strToLower output else str "00"
    | none => str "00"
  else str "00"

/-- The source `getOriginalSignature` (lines 137-141): the signing-block reader is used
unconditionally (the comment says it is forced); `getCertRsaHex` is never
called. -/
def getOriginalSignature (e : SigEnv) : Str := getCertHexUsingApkSig e

/-! ## Bytecode-partition selection (signerService.ts lines 469-494) -/

/-- The literal `smali_classes`. -/
def scLit : Str := str "smali_classes"

/-- One anchored attempt of the regex `smali_classes(\d+)`: the literal
followed by at least one digit, capturing the maximal digit run. -/
def scParseAt (s : Str) : Option Nat :=
  if scLit.isPrefixOf s then
    let ds := (s.drop scLit.length).takeWhile isDigitCode
    if ds = [] then none else some (digitsVal ds)
  else none

/-- The match `d.match(/smali_classes(\d+)/)` with `parseInt` of the capture: leftmost
position where the anchored attempt succeeds. -/
def scParse : Str → Option Nat
  | [] => none
  | c :: rest =>
    match scParseAt (c :: rest) with
    | some v => some v
    | none => scParse rest

/-- One step of the `maxIndex` loop (lines 472-479). -/
def scFold (acc : Nat) (d : Str) : Nat :=
  match scParse d with
  | some k => if k > acc then k else acc
  | none => acc

/-- The `maxIndex` loop of lines 470-480: fold over the directories whose name
starts with `smali_classes`, starting from 1, keeping the largest parsed
index. -/
def maxSmaliIndex (dirs : List Str) : Nat :=
  (dirs.filter (fun d => scLit.isPrefixOf d)).foldl scFold 1

/-- Lines 482-494: the partition directory targeted for the injected helper
classes.  `smaliExists` is `fs.existsSync(decodeDir/smali)`. -/
def nextSmaliDir (dirs : List Str) (smaliExists : Bool) : Str :=
  let fdirs := dirs.filter (fun d => scLit.isPrefixOf d)
  if fdirs.length = 0 then
    if smaliExists then str "smali_classes2" else str "smali"
  else scLit ++ natToCodes (maxSmaliIndex dirs + 1)

/-! ## Register-count invariant (signerService.ts lines 593-784) -/

/-- The four injection variants of `injectCodeToSmali`. -/
inductive InjMethod
  | attachBaseContext
  | onCreate
  | providerOnCreate
  | staticBlock
deriving DecidableEq

/-- The source `minLocals` (line 718): 6 for the static-block variant, 3 for the
content-provider variant, 2 otherwise. -/
def minLocals : InjMethod → Nat
  | .staticBlock => 6
  | .providerOnCreate => 3
  | _ => 2

/-- Lines 712-723: the `.locals` count declared by an existing method after
patching — raised to the minimum when below it, untouched otherwise. -/
def patchedLocals (m : InjMethod) (count : Nat) : Nat :=
  if count < minLocals m then minLocals m else count

/-- Lines 740-776: the `.locals` count written into a freshly created method
(`.locals 3` for the provider variant, `.locals 6` for the static block,
`.locals 2` otherwise). -/
def createdLocals : InjMethod → Nat
  | .providerOnCreate => 3
  | .staticBlock => 6
  | _ => 2

/-! ## InjectionPlanner (signerService.ts lines 304-504)

`injectHookCode` mixes decision logic with external-tool calls; the
environment below records each call's observable outcome and the decision
logic is reproduced as the pure function `injectHookCodePlan`. -/

/-- Environment of one `injectHookCode` run. -/
structure InjectEnv where
  /-- does the decoded manifest start with the binary-XML magic (line 314)? -/
  binaryMagic : Bool
  /-- Result of `fs.existsSync(AXMLPrinter2.jar)` (line 317) -/
  axmlExists : Bool
  /-- stdout of the AXMLPrinter run (line 319), `none` = threw -/
  axmlOut : Option Str
  /-- the manifest bytes read as UTF-8 text (`buffer.toString('utf-8')`) -/
  manifestText : Str
  /-- package name obtained via aapt by the caller (line 228), `[]` if none -/
  aaptPackageName : Str
  /-- did `findSmaliFile` locate the declared Application class (line 369)? -/
  appSmaliFound : Bool
  /-- Result of `fs.existsSync(ManifestEditor-2.0.jar)` (line 387) -/
  manifestEditorExists : Bool
  /-- did `unzip -p original AndroidManifest.xml` succeed (line 394)? -/
  unzipManifestOk : Bool
  /-- did the ManifestEditor command succeed (line 399)? -/
  manifestEditorOk : Bool
  /-- Result of `fs.existsSync(modifiedManifestPath)` (line 401) -/
  editorOutputExists : Bool
  /-- did `findSmaliFile` locate the launch activity (line 451)? -/
  launchSmaliFound : Bool
  /-- did `injectCodeToSmali` on the launch activity complete (line 454)? -/
  fallbackInjectOk : Bool

/-- The robust manifest read of lines 308-342: text content and the residual
`isBinaryManifest` flag.  An empty converter output falls back to the raw
bytes (line 340). -/
def readManifest (e : InjectEnv) : Str × Bool :=
  if e.binaryMagic then
    if e.axmlExists then
      match e.axmlOut with
      | some out => (if out = [] then e.manifestText else out, false)
      | none => (e.manifestText, true)
    else (e.manifestText, true)
  else (e.manifestText, false)

/-- The manifest text all downstream matching runs on. -/
def contentOf (e : InjectEnv) : Str := (readManifest e).1

/-- The `isBinaryManifest` flag after the robust read. -/
def isBinaryOf (e : InjectEnv) : Bool := (readManifest e).2

/-- Lines 345-353: the package name — the aapt result when present, otherwise
the first `package\s*=\s*["']([^"']+)["']` match of the manifest text. -/
def pkgOf (e : InjectEnv) : Option Str :=
  if e.aaptPackageName ≠ [] then some e.aaptPackageName
  else firstAttr pkgLit (contentOf e)

/-- Success condition of plan A (lines 387-412): the binary ManifestEditor
patch worked end to end. -/
def binaryPatchOk (e : InjectEnv) : Bool :=
  e.manifestEditorExists && e.unzipManifestOk && e.manifestEditorOk &&
    e.editorOutputExists

/-- Success condition of plan B (lines 415-436): the manifest is textual and
contains an `<application` tag to patch. -/
def textPatchOk (e : InjectEnv) : Bool :=
  !isBinaryOf e && containsSub appLit (contentOf e)

/-- Success condition of the last-resort plan (lines 446-462): a launch
activity was found, its smali file located, and the static-block injection
completed. -/
def fallbackPatchOk (e : InjectEnv) : Bool :=
  (findLaunchActivity (contentOf e)).isSome && e.launchSmaliFound &&
    e.fallbackInjectOk

/-- Observable outcome of `injectHookCode`'s strategy selection. -/
inductive InjectOutcome
  /-- line 351: neither aapt nor the manifest yielded a package name -/
  | errNoPackageName
  /-- line 372: `attachBaseContext` of the declared Application patched -/
  | applicationHook (target : Str)
  /-- line 374: Application declared but its smali file was not found -/
  | errLocateClass (target : Str)
  /-- lines 401-405: synthetic Application declared via the binary patch -/
  | manifestSynthBinary
  /-- lines 421-426: synthetic Application declared via the textual patch -/
  | manifestSynthText
  /-- lines 448-457: static block injected into the launch activity -/
  | activityFallback (target : Str)
  /-- line 464: all strategies exhausted -/
  | errInjectionImpossible
deriving DecidableEq

/-- The decision structure of `injectHookCode` (lines 344-466): Application
hook when a class is declared, else binary then textual manifest synthesis,
else the launch-activity static-block fallback, else the terminal error. -/
def injectHookCodePlan (e : InjectEnv) : InjectOutcome :=
  match pkgOf e with
  | none => .errNoPackageName
  | some pkg =>
    match extractApplicationName (contentOf e) with
    | some appClass =>
      if e.appSmaliFound then .applicationHook (normalizeClassName appClass pkg)
      else .errLocateClass (normalizeClassName appClass pkg)
    | none =>
      if binaryPatchOk e then .manifestSynthBinary
      else if textPatchOk e then .manifestSynthText
      else
        match findLaunchActivity (contentOf e) with
        | some la =>
          if e.launchSmaliFound && e.fallbackInjectOk then
            .activityFallback (normalizeClassName la pkg)
          else .errInjectionImpossible
        | none => .errInjectionImpossible

/-! ## DexMerger (signerService.ts lines 786-810)

A zip container is an association list from entry names to entry bytes;
`zipGet` is entry lookup, `zipUpdate` is `zip -u` of one file (replace the
entry or append it). -/

/-- One container entry: name and bytes. -/
abbrev ZipEntry := Str × List Nat

/-- A zip-based container. -/
abbrev Zip := List ZipEntry

/-- Entry lookup. -/
def zipGet : Zip → Str → Option (List Nat)
  | [], _ => none
  | (k, v) :: rest, n => if k = n then some v else zipGet rest n

/-- One `zip -u` of a single file: replace the named entry, or append it. -/
def zipUpdate : Zip → Str → List Nat → Zip
  | [], n, c => [(n, c)]
  | (k, v) :: rest, n, c =>
    if k = n then (k, c) :: rest else (k, v) :: zipUpdate rest n c

/-- The entry name `AndroidManifest.xml`. -/
def manifestEntryName : Str := str "AndroidManifest.xml"

/-- The `unzip` pattern `classes*.dex` (line 793): `classes` prefix, `.dex`
suffix, the wildcard free to match anything in between. -/
def globClassesDex (n : Str) : Bool :=
  (str "classes").isPrefixOf n && (str ".dex").isSuffixOf n && 11 ≤ n.length

/-- The source `mergeDexIntoOriginalApk` (lines 786-810): copy the original container,
extract the regenerated `classes*.dex` entries of the freshly built container
(plus, when the manifest changed, the externally patched binary manifest or
the built one), and `zip -u` exactly those files into the copy. -/
def mergeDexIntoOriginalApk (originalApk buildApk : Zip) (updateManifest : Bool)
    (binaryManifest : Option (List Nat)) : Zip :=
  let dexTemp := buildApk.filter (fun en => globClassesDex en.1)
  let withMan :=
    if updateManifest then
      match binaryManifest with
      | some b => zipUpdate dexTemp manifestEntryName b
      | none =>
        match zipGet buildApk manifestEntryName with
        | some m => zipUpdate dexTemp manifestEntryName m
        | none => dexTemp
    else dexTemp
  withMan.foldl (fun acc en => zipUpdate acc en.1 en.2) originalApk

/-! ## ResignOrchestrator (signerService.ts lines 200-302)

`injectAndResignApk` is a strictly sequential try/catch/finally pipeline; we
model each external stage by its observable outcome and track the filesystem
trace the claims talk about: temporary directories created and removed, and
whether the expected output path was written. -/

/-- The `SignResult` record returned to the caller. -/
structure SignResultM where
  success : Bool
  message : Str
  outputPath : Option Str
deriving DecidableEq

/-- Filesystem trace of one run. -/
structure Trace where
  /-- temporary directories created by `fs.mkdtempSync` -/
  createdDirs : List Str
  /-- directories removed by `fs.rmSync` -/
  removedDirs : List Str
  /-- was the expected output path (`‹apk›_hooked_signed.apk`) written? -/
  outputWritten : Bool
deriving DecidableEq

/-- Environment of one `injectAndResignApk` run: outcomes of the staged
external commands (`none` = the stage succeeded, `some e` = it threw `e`). -/
structure PipeEnv where
  /-- signature-extraction boundary (step 0, never throws) -/
  sig : SigEnv
  /-- injection analysis and patching boundary (step 2) -/
  inj : InjectEnv
  /-- Outcome of `apktool d` (step 1) -/
  decompileErr : Option Str
  /-- Outcome of `apktool b` (step 3) -/
  buildErr : Option Str
  /-- the unzip/zip commands of the merge (step 4) -/
  mergeErr : Option Str
  /-- Result of `fs.existsSync(zipalign)` (line 261) -/
  zipalignExists : Bool
  /-- the zipalign run (step 5) -/
  zipalignErr : Option Str
  /-- message of a failed `resignApk` call (step 6), `none` = signed fine -/
  signFail : Option Str
  /-- Result of `fs.existsSync(signedTemp)` (line 286) -/
  signedFileExists : Bool

/-- The `mkdtemp` prefix of the main working directory (line 210). -/
def apkInjectPre : Str := str "apk-inject-"

/-- The `mkdtemp` prefix of the binary-manifest editing directory (line 390). -/
def manifestEditPre : Str := str "manifest-edit-"

/-- The `mkdtemp` prefix of the dex-merge scratch directory (line 791). -/
def dexMergePre : Str := str "dex-merge-"

/-- The main working directory of the job with unique suffix `seed`. -/
def mainDir (seed : Str) : Str := apkInjectPre ++ seed

/-- The manifest-edit scratch directory of the job. -/
def meditDir (seed : Str) : Str := manifestEditPre ++ seed

/-- The dex-merge scratch directory of the job. -/
def dmergeDir (seed : Str) : Str := dexMergePre ++ seed

/-- The expected output path (line 212):
`apkPath.replace('.apk', '_hooked_signed.apk')`. -/
def outputApkPath (apkPath : Str) : Str :=
  replaceFirst apkPath (str ".apk") (str "_hooked_signed.apk")

/-- Prefix of every failure message (line 295). -/
def failPre : Str := str "处理失败: "

/-- Success message (line 288). -/
def msgInjectSignOk : Str := str "注入并签名成功"

/-- Error of line 351. -/
def msgNoPkg : Str := str "无法在 Manifest 中找到包名，且未通过 aapt 获取到包名"

/-- Error prefix of line 374. -/
def msgLocatePre : Str := str "无法定位 Application 类文件: "

/-- Error of line 464. -/
def msgImpossible : Str := str "无法修改 Manifest 且无法注入 Application，签名验证可能失效"

/-- Error of line 290. -/
def msgNoSignedFile : Str := str "签名后文件未生成"

/-- Directories `injectHookCode` creates: the manifest-edit scratch directory
is made (line 390) exactly when the package name resolved, no Application
class was declared, and the ManifestEditor jar exists — before any of the
editing commands run. -/
def injectStepDirs (e : InjectEnv) (seed : Str) : List Str :=
  match pkgOf e with
  | none => []
  | some _ =>
    match extractApplicationName (contentOf e) with
    | some _ => []
    | none => if e.manifestEditorExists then [meditDir seed] else []

/-- Result of `injectHookCode` as the thrown/returned value seen by the
pipeline: the `(manifestModified, usedBinaryManifest)` pair on success. -/
def injectExceptOf : InjectOutcome → Except Str (Bool × Bool)
  | .errNoPackageName => .error msgNoPkg
  | .applicationHook _ => .ok (false, false)
  | .errLocateClass t => .error (msgLocatePre ++ t)
  | .manifestSynthBinary => .ok (true, true)
  | .manifestSynthText => .ok (true, false)
  | .activityFallback _ => .ok (false, false)
  | .errInjectionImpossible => .error msgImpossible

/-- All directories created once the merge stage has been entered. -/
def fullCreated (env : PipeEnv) (seed : Str) : List Str :=
  [mainDir seed] ++ injectStepDirs env.inj seed ++ [dmergeDir seed]

/-- A failure exit: the catch block of lines 293-295 plus the finally block of
lines 296-301 (the main directory is always removed; `removedMid` holds the
dex-merge directory when its `finally` ran). -/
def pipeFail (created removedMid : List Str) (seed e : Str) :
    SignResultM × Trace :=
  ({ success := false, message := failPre ++ e, outputPath := none },
   { createdDirs := created, removedDirs := removedMid ++ [mainDir seed],
     outputWritten := false })

/-- The source `injectAndResignApk` (signerService.ts lines 200-302) at the granularity
of its stages, returning the caller-visible result and the filesystem trace.
`seed` is the unique suffix `mkdtempSync` appends to each directory prefix. -/
def injectAndResignApk (env : PipeEnv) (apkPath seed : Str) :
    SignResultM × Trace :=
  match env.decompileErr with
  | some e => pipeFail [mainDir seed] [] seed e
  | none =>
    match injectExceptOf (injectHookCodePlan env.inj) with
    | .error e =>
      pipeFail ([mainDir seed] ++ injectStepDirs env.inj seed) [] seed e
    | .ok _ =>
      match env.buildErr with
      | some e =>
        pipeFail ([mainDir seed] ++ injectStepDirs env.inj seed) [] seed e
      | none =>
        match env.mergeErr with
        | some e => pipeFail (fullCreated env seed) [dmergeDir seed] seed e
        | none =>
          match (if env.zipalignExists then env.zipalignErr else none) with
          | some e => pipeFail (fullCreated env seed) [dmergeDir seed] seed e
          | none =>
            match env.signFail with
            | some m => pipeFail (fullCreated env seed) [dmergeDir seed] seed m
            | none =>
              if env.signedFileExists then
                ({ success := true, message := msgInjectSignOk,
                   outputPath := some (outputApkPath apkPath) },
                 { createdDirs := fullCreated env seed,
                   removedDirs := [dmergeDir seed, mainDir seed],
                   outputWritten := true })
              else
                pipeFail (fullCreated env seed) [dmergeDir seed] seed
                  msgNoSignedFile

/-! ## Helper lemmas -/

theorem scFold_le (a : Nat) (d : Str) : a ≤ scFold a d := by
  unfold scFold
  match scParse d with
  | some k => dsimp; split <;> omega
  | none => dsimp; omega

theorem le_foldl_scFold (l : List Str) : ∀ a : Nat, a ≤ l.foldl scFold a := by
  induction l with
  | nil => intro a; simp
  | cons x t ih =>
    intro a
    calc a ≤ scFold a x := scFold_le a x
    _ ≤ (x :: t).foldl scFold a := by simpa using ih (scFold a x)

theorem foldl_scFold_le (n : Nat) (l : List Str)
    (hub : ∀ d ∈ l, ∀ k, scParse d = some k → k ≤ n) :
    ∀ a : Nat, a ≤ n → l.foldl scFold a ≤ n := by
  induction l with
  | nil => intro a ha; simpa using ha
  | cons x t ih =>
    intro a ha
    have hx : scFold a x ≤ n := by
      unfold scFold
      match hp : scParse x with
      | some k =>
        have := hub x (by simp) k hp
        dsimp; split <;> omega
      | none => dsimp; omega
    simpa using ih (fun d hd k hk => hub d (by simp [hd]) k hk) (scFold a x) hx

theorem foldl_scFold_attains (l : List Str) (d : Str) (k : Nat)
    (hd : d ∈ l) (hk : scParse d = some k) :
    ∀ a : Nat, k ≤ l.foldl scFold a := by
  induction l with
  | nil => cases hd
  | cons x t ih =>
    intro a
    rcases List.mem_cons.mp hd with h | h
    · subst h
      have h1 : k ≤ scFold a d := by
        unfold scFold; rw [hk]; dsimp; split <;> omega
      calc k ≤ scFold a d := h1
      _ ≤ t.foldl scFold (scFold a d) := le_foldl_scFold t _
      _ = (d :: t).foldl scFold a := by simp
    · simpa using ih h (scFold a x)

theorem hexDigit_lower (m : Nat) (hm : m ≤ 15) :
    isLowerHexCode (hexDigit m) = true := by
  unfold isLowerHexCode hexDigit
  split <;> simp <;> omega

theorem bytesToHex_all_lower (bs : List Nat) :
    (bytesToHex bs).all isLowerHexCode = true := by
  induction bs with
  | nil => rfl
  | cons b t ih =>
    unfold bytesToHex at *
    simp only [List.flatMap_cons, List.all_append, ih, Bool.and_true]
    have h1 : b % 256 / 16 ≤ 15 := by omega
    have h2 : b % 16 ≤ 15 := by omega
    simp [hexDigit_lower _ h1, hexDigit_lower _ h2]

theorem bytesToHex_even (bs : List Nat) : (bytesToHex bs).length % 2 = 0 := by
  induction bs with
  | nil => rfl
  | cons b t ih =>
    unfold bytesToHex at *
    simp only [List.flatMap_cons, List.length_append, List.length_cons,
      List.length_nil]
    omega

theorem toLowerCode_hex (c : Nat) (h : isHexCode c = true) :
    isLowerHexCode (toLowerCode c) = true := by
  unfold isHexCode at h
  unfold isLowerHexCode toLowerCode
  simp only [Bool.or_eq_true, Bool.and_eq_true, decide_eq_true_eq] at h ⊢
  split <;> omega

theorem strToLower_all_lower (s : Str) (h : s.all isHexCode = true) :
    (strToLower s).all isLowerHexCode = true := by
  unfold strToLower
  rw [List.all_map]
  rw [List.all_eq_true] at h ⊢
  intro c hc
  exact toLowerCode_hex c (h c hc)

/-! ## C3 — register-count invariant -/

/-- C3: for every patched or created method the declared `.locals` count is at
least the variant's minimum (6 for the static-initializer injection, 3 for the
content-provider variant, 2 for simple direct calls); a declaration below the
minimum is raised to exactly the minimum and a declaration at or above it is
never changed, hence never lowered. -/
theorem injectCodeToSmali_locals_invariant (m : InjMethod) (count : Nat) :
    minLocals m ≤ patchedLocals m count
    ∧ (count < minLocals m → patchedLocals m count = minLocals m)
    ∧ (minLocals m ≤ count → patchedLocals m count = count)
    ∧ count ≤ patchedLocals m count
    ∧ minLocals m ≤ createdLocals m
    ∧ createdLocals m = minLocals m
    ∧ minLocals .staticBlock = 6
    ∧ minLocals .providerOnCreate = 3
    ∧ minLocals .attachBaseContext = 2
    ∧ minLocals .onCreate = 2 := by
  cases m <;>
    refine ⟨?_, ?_, ?_, ?_, ?_, ?_, rfl, rfl, rfl, rfl⟩ <;>
    simp only [patchedLocals, minLocals, createdLocals] <;>
    (try intro h) <;>
    (try split) <;>
    omega

/-- Witness for C3 at concrete inputs: a static-block method declaring 2
locals is raised to 6, and an `attachBaseContext` already declaring 5 locals
is left at 5. -/
theorem injectCodeToSmali_locals_invariant_witness :
    patchedLocals .staticBlock 2 = 6 ∧ patchedLocals .attachBaseContext 5 = 5 :=
  ⟨(injectCodeToSmali_locals_invariant .staticBlock 2).2.1 (by decide),
   (injectCodeToSmali_locals_invariant .attachBaseContext 5).2.2.1 (by decide)⟩

/-! ## C4 — partition selection -/

/-- C4: partition selection scans the bytecode-partition directories, and
(1) when some `smali_classes‹N›` directory exists, targets one past the
largest parsed index (the fold starts at 1, so with `1 ≤ n` maximal the target
is `smali_classes‹n+1›`); (2) when only the unlabeled `smali` partition
exists, targets `smali_classes2`; (3) in particular for existing partitions
`{default, 2, 5}` the target is partition 6. -/
theorem nextSmaliDir_spec :
    (∀ (dirs : List Str) (smaliEx : Bool) (d : Str) (n : Nat),
      d ∈ dirs → scLit.isPrefixOf d = true → scParse d = some n → 1 ≤ n →
      (∀ d' ∈ dirs, (scParse d').getD 1 ≤ n) →
      nextSmaliDir dirs smaliEx = scLit ++ natToCodes (n + 1))
    ∧ (∀ dirs : List Str,
      (∀ d ∈ dirs, scLit.isPrefixOf d = false) →
      nextSmaliDir dirs true = str "smali_classes2")
    ∧ nextSmaliDir
        [str "res", str "smali", str "smali_classes2", str "smali_classes5"]
        true
      = str "smali_classes6" := by
  refine ⟨?_, ?_, by decide⟩
  · intro dirs smaliEx d n hd hpre hparse hn hub
    have hmem : d ∈ dirs.filter (fun d => scLit.isPrefixOf d) :=
      List.mem_filter.mpr ⟨hd, hpre⟩
    have hne : dirs.filter (fun d => scLit.isPrefixOf d) ≠ [] := by
      intro h; rw [h] at hmem; cases hmem
    have hmax : maxSmaliIndex dirs = n := by
      unfold maxSmaliIndex
      have hge : n ≤ (dirs.filter (fun d => scLit.isPrefixOf d)).foldl scFold 1 :=
        foldl_scFold_attains _ d n hmem hparse 1
      have hle : (dirs.filter (fun d => scLit.isPrefixOf d)).foldl scFold 1 ≤ n := by
        refine foldl_scFold_le n _ ?_ 1 hn
        intro d' hd' k hk
        have := hub d' (List.mem_filter.mp hd').1
        rw [hk] at this
        simpa using this
      omega
    unfold nextSmaliDir
    rw [hmax]
    simp only [List.length_eq_zero]
    rw [if_neg hne]
  · intro dirs hnone
    have hfil : dirs.filter (fun d => scLit.isPrefixOf d) = [] := by
      rw [List.filter_eq_nil_iff]
      intro d hd
      simp [hnone d hd]
    unfold nextSmaliDir
    rw [hfil]
    rfl

/-- Witness for C4: for partitions `{smali_classes3}` the target is
`smali_classes4`, and with no labeled partition but an unlabeled `smali` the
target is `smali_classes2`. -/
theorem nextSmaliDir_spec_witness :
    nextSmaliDir [str "smali_classes3"] false = str "smali_classes4"
    ∧ nextSmaliDir [str "res"] true = str "smali_classes2" := by
  constructor
  · have h := nextSmaliDir_spec.1 [str "smali_classes3"] false
      (str "smali_classes3") 3 (by decide) (by decide) (by decide) (by decide)
      (by decide)
    rw [h]; decide
  · exact nextSmaliDir_spec.2.1 [str "res"] (by decide)

/-! ## C2 — signing-block reader with no legacy fallback -/

/-- Concrete counterexample environment for C2: the signing-block reader is
absent (so it fails), while the container listing shows a legacy
`META-INF/CERT.RSA` signature file with bytes `0xAB` that the legacy reader
would return. -/
def c2Env : SigEnv :=
  { apkSigReaderExists := false
    apkSigStdout := none
    unzipListOut := some (str "  1024  01-01-1980 00:00  META-INF/CERT.RSA")
    unzipExtractOk := true
    certBytes := [171] }

/-- Counterexample to C2: on signing-block-reader failure the extraction
returns the sentinel `"00"` even though the legacy signature file is present
in the container and reading it would yield `"ab"` — so no fallback to the
legacy file happens. -/
theorem getOriginalSignature_no_fallback_cex :
    getOriginalSignature c2Env = str "00"
    ∧ findCertFileName (splitOnSub (str "\n")
        (str "  1024  01-01-1980 00:00  META-INF/CERT.RSA"))
      = some (str "META-INF/CERT.RSA")
    ∧ getCertRsaHex c2Env = str "ab"
    ∧ getCertRsaHex c2Env ≠ getOriginalSignature c2Env := by decide

/-- C2 (amended): signature extraction invokes only the signing-block reader;
when the reader jar is missing, its process fails, or its trimmed output is
not a non-empty hex string, extraction returns the sentinel `"00"` (with a
logged warning) instead of aborting; the legacy `META-INF` reader is never
invoked. -/
theorem getOriginalSignature_reader_only (e : SigEnv) :
    getOriginalSignature e = getCertHexUsingApkSig e
    ∧ (e.apkSigReaderExists = false → getOriginalSignature e = str "00")
    ∧ (e.apkSigStdout = none → getOriginalSignature e = str "00")
    ∧ (∀ s, e.apkSigStdout = some s →
        ¬(jsTrim s ≠ [] ∧ (jsTrim s).all isHexCode = true) →
        getOriginalSignature e = str "00")
    ∧ (∀ s, e.apkSigStdout = some s → e.apkSigReaderExists = true →
        jsTrim s ≠ [] → (jsTrim s).all isHexCode = true →
        getOriginalSignature e = strToLower (jsTrim s)) := by
  refine ⟨rfl, ?_, ?_, ?_, ?_⟩
  · intro h
    unfold getOriginalSignature getCertHexUsingApkSig
    rw [h]
    rfl
  · intro h
    unfold getOriginalSignature getCertHexUsingApkSig
    rw [h]
    split <;> rfl
  · intro s hs hnot
    unfold getOriginalSignature getCertHexUsingApkSig
    rw [hs]
    split
    · dsimp only
      rw [if_neg]
      intro hcon
      simp only [Bool.and_eq_true, decide_eq_true_eq] at hcon
      exact hnot ⟨hcon.1, hcon.2⟩
    · rfl
  · intro s hs hex hne hall
    unfold getOriginalSignature getCertHexUsingApkSig
    rw [hs, if_pos hex]
    dsimp only
    rw [if_pos]
    simp only [Bool.and_eq_true, decide_eq_true_eq]
    exact ⟨hne, hall⟩

/-- Witness for C2 (amended) at concrete inputs: a reader outputting
`" ABc "` yields `"abc"`, and a missing reader yields the sentinel. -/
theorem getOriginalSignature_reader_only_witness :
    getOriginalSignature
        { apkSigReaderExists := true, apkSigStdout := some (str " ABc "),
          unzipListOut := none, unzipExtractOk := false, certBytes := [] }
      = str "abc"
    ∧ getOriginalSignature
        { apkSigReaderExists := false, apkSigStdout := some (str "ab"),
          unzipListOut := none, unzipExtractOk := false, certBytes := [] }
      = str "00" := by
  constructor
  · have h := (getOriginalSignature_reader_only
      { apkSigReaderExists := true, apkSigStdout := some (str " ABc "),
        unzipListOut := none, unzipExtractOk := false,
        certBytes := [] }).2.2.2.2 (str " ABc ") rfl rfl (by decide) (by decide)
    rw [h]; decide
  · exact (getOriginalSignature_reader_only
      { apkSigReaderExists := false, apkSigStdout := some (str "ab"),
        unzipListOut := none, unzipExtractOk := false,
        certBytes := [] }).2.1 rfl

/-! ## C1 — strategy cascade of the injection planner -/

/-- C1: with the package name resolved, the planner (1) chooses the
ApplicationHook strategy whenever an Application class is declared (patching
that class when its smali file is found, failing with a locate error — not
the injection-impossible error — otherwise); (2) with none declared chooses
ManifestSynthesis, binary patch preferred, textual patch as fallback;
(3) with the manifest unpatchable by either means chooses the
launch-activity static-block fallback; and (4) fails with the
injection-impossible error exactly when all of these are exhausted. -/
theorem injectHookCodePlan_cascade (e : InjectEnv) (pkg : Str)
    (hpkg : pkgOf e = some pkg) :
    (∀ a, extractApplicationName (contentOf e) = some a →
      injectHookCodePlan e =
        (if e.appSmaliFound = true then
          InjectOutcome.applicationHook (normalizeClassName a pkg)
        else InjectOutcome.errLocateClass (normalizeClassName a pkg))
      ∧ injectHookCodePlan e ≠ .errInjectionImpossible)
    ∧ (extractApplicationName (contentOf e) = none → binaryPatchOk e = true →
        injectHookCodePlan e = .manifestSynthBinary)
    ∧ (extractApplicationName (contentOf e) = none → binaryPatchOk e = false →
        textPatchOk e = true → injectHookCodePlan e = .manifestSynthText)
    ∧ (∀ la, extractApplicationName (contentOf e) = none →
        binaryPatchOk e = false → textPatchOk e = false →
        findLaunchActivity (contentOf e) = some la →
        e.launchSmaliFound = true → e.fallbackInjectOk = true →
        injectHookCodePlan e = .activityFallback (normalizeClassName la pkg))
    ∧ (injectHookCodePlan e = .errInjectionImpossible ↔
        extractApplicationName (contentOf e) = none ∧ binaryPatchOk e = false
          ∧ textPatchOk e = false ∧ fallbackPatchOk e = false) := by
  refine ⟨?_, ?_, ?_, ?_, ?_⟩
  · intro a ha
    constructor
    · unfold injectHookCodePlan
      rw [hpkg, ha]
    · unfold injectHookCodePlan
      rw [hpkg, ha]
      cases e.appSmaliFound <;> simp
  · intro hx hbin
    unfold injectHookCodePlan
    rw [hpkg, hx]
    simp [hbin]
  · intro hx hbin htext
    unfold injectHookCodePlan
    rw [hpkg, hx]
    simp [hbin, htext]
  · intro la hx hbin htext hla hsm hok
    unfold injectHookCodePlan
    rw [hpkg, hx]
    simp [hbin, htext, hla, hsm, hok]
  · unfold injectHookCodePlan
    rw [hpkg]
    constructor
    · intro h
      match hx : extractApplicationName (contentOf e) with
      | some a =>
        rw [hx] at h
        cases hsm : e.appSmaliFound <;> rw [hsm] at h <;> simp at h
      | none =>
        rw [hx] at h
        refine ⟨rfl, ?_, ?_, ?_⟩ <;>
          cases hbin : binaryPatchOk e <;> rw [hbin] at h <;>
          try rfl
        all_goals try simp at h
        all_goals cases htext : textPatchOk e <;> rw [htext] at h <;> try rfl
        all_goals try simp at h
        all_goals
          unfold fallbackPatchOk
          match hla : findLaunchActivity (contentOf e) with
          | some la =>
            rw [hla] at h
            cases hsm : e.launchSmaliFound <;> cases hok : e.fallbackInjectOk <;>
              rw [hsm, hok] at h <;> simp_all
          | none => simp [hla]
    · rintro ⟨hx, hbin, htext, hfb⟩
      rw [hx]
      simp only [hbin, htext]
      unfold fallbackPatchOk at hfb
      match hla : findLaunchActivity (contentOf e) with
      | some la =>
        rw [hla] at hfb
        simp only [Option.isSome_some, Bool.true_and, Bool.and_eq_false_iff]
          at hfb
        simp only [Bool.false_eq_true, if_false]
        rcases hfb with hb | hb <;> simp [hb]
      | none => simp

/-- The baseline planner environment used by the C1 witness: package name
known from aapt, every external capability switched off. -/
def injEnvBase : InjectEnv :=
  { binaryMagic := false
    axmlExists := false
    axmlOut := none
    manifestText := []
    aaptPackageName := str "com.a"
    appSmaliFound := false
    manifestEditorExists := false
    unzipManifestOk := false
    manifestEditorOk := false
    editorOutputExists := false
    launchSmaliFound := false
    fallbackInjectOk := false }

/-- Manifest declaring an Application class. -/
def mHook : Str := str "<application android:name=\"com.a.App\"></application>"

/-- Manifest with an `<application>` tag but no Application class. -/
def mNone : Str := str "<application></application>"

/-- Manifest with no `<application>` tag and a launch activity. -/
def mLaunch : Str :=
  str "<activity android:name=\"com.a.Main\">android.intent.action.MAIN android.intent.category.LAUNCHER</activity>"

/-- Manifest with no `<application>` tag and no launch activity. -/
def mDead : Str :=
  str "<activity android:name=\"com.a.Main\">android.intent.action.MAIN</activity>"

/-- C1 witness environment: Application class declared, smali file found. -/
def injEnvHook : InjectEnv :=
  { injEnvBase with manifestText := mHook, appSmaliFound := true }

/-- C1 witness environment: no class declared, binary editor works. -/
def injEnvBin : InjectEnv :=
  { injEnvBase with manifestText := mNone, manifestEditorExists := true, unzipManifestOk := true, manifestEditorOk := true, editorOutputExists := true }

/-- C1 witness environment: no class declared, only the textual patch works. -/
def injEnvText : InjectEnv := { injEnvBase with manifestText := mNone }

/-- C1 witness environment: manifest unpatchable, launch activity usable. -/
def injEnvFb : InjectEnv :=
  { injEnvBase with manifestText := mLaunch, launchSmaliFound := true, fallbackInjectOk := true }

/-- C1 witness environment: everything exhausted. -/
def injEnvDead : InjectEnv := { injEnvBase with manifestText := mDead }

/-- Witness for C1: all five branches of the cascade at concrete inputs —
ApplicationHook when a class is declared, binary then textual
ManifestSynthesis, the activity fallback, and the injection-impossible error
when everything is exhausted. -/
theorem injectHookCodePlan_cascade_witness :
    injectHookCodePlan injEnvHook = .applicationHook (str "com.a.App")
    ∧ injectHookCodePlan injEnvBin = .manifestSynthBinary
    ∧ injectHookCodePlan injEnvText = .manifestSynthText
    ∧ injectHookCodePlan injEnvFb = .activityFallback (str "com.a.Main")
    ∧ injectHookCodePlan injEnvDead = .errInjectionImpossible := by
  refine ⟨?_, ?_, ?_, ?_, ?_⟩
  · have h := ((injectHookCodePlan_cascade injEnvHook (str "com.a")
      (by decide)).1 (str "com.a.App") (by decide)).1
    rw [h]; decide
  · exact (injectHookCodePlan_cascade injEnvBin (str "com.a") (by decide)).2.1
      (by decide) (by decide)
  · exact (injectHookCodePlan_cascade injEnvText (str "com.a")
      (by decide)).2.2.1 (by decide) (by decide) (by decide)
  · have h := (injectHookCodePlan_cascade injEnvFb (str "com.a")
      (by decide)).2.2.2.1 (str "com.a.Main") (by decide) (by decide)
      (by decide) (by decide) (by decide) (by decide)
    rw [h]; decide
  · exact (injectHookCodePlan_cascade injEnvDead (str "com.a")
      (by decide)).2.2.2.2.mpr ⟨by decide, by decide, by decide, by decide⟩

/-! ## C9 — application-name scan stops at the first child boundary -/

theorem firstStopIndex_eq_of_least (area : Str) (j : Nat)
    (hstop : isStopAt (area.drop j) = true)
    (hmin : ∀ k < j, isStopAt (area.drop k) = false) :
    firstStopIndex area = some j := by
  induction j generalizing area with
  | zero =>
    match area with
    | [] =>
      simp only [List.drop_nil] at hstop
      rw [show isStopAt ([] : Str) = false by decide] at hstop
      cases hstop
    | c :: rest =>
      unfold firstStopIndex
      rw [if_pos (by simpa using hstop)]
  | succ j ih =>
    have h0 : isStopAt area = false := by simpa using hmin 0 (Nat.succ_pos j)
    match area with
    | [] =>
      simp only [List.drop_nil] at hstop
      rw [show isStopAt ([] : Str) = false by decide] at hstop
      cases hstop
    | c :: rest =>
      unfold firstStopIndex
      rw [if_neg (by simp [h0])]
      have hrest : firstStopIndex rest = some j := by
        refine ih rest (by simpa using hstop) ?_
        intro k hk
        simpa using hmin (k + 1) (by omega)
      rw [hrest]
      rfl

/-- C9: the declared Application class is extracted only from the opening
`<application ...>` tag's attribute region — whenever `j` is the first
child-element or closing-tag boundary after the first `<application` at
index `i`, the whole extraction result is computed from the text strictly
before that boundary, so an `android:name` belonging to a child component
(which can only occur at or after the boundary) is never returned. -/
theorem extractApplicationName_scoped (content : Str) (i j : Nat)
    (happ : lcIndexOfSub appLit content = some i)
    (hstop : isStopAt ((content.drop i).drop j) = true)
    (hmin : ∀ k < j, isStopAt ((content.drop i).drop k) = false) :
    extractApplicationName content =
      match firstAttr nameLit ((content.drop i).take j) with
      | some name => if excludedName name then none else some name
      | none => none := by
  have hfs := firstStopIndex_eq_of_least (content.drop i) j hstop hmin
  unfold extractApplicationName appNameArea
  rw [happ]
  dsimp only
  rw [hfs]

/-- Manifest whose only `android:name` belongs to a child `<activity>`. -/
def mChild : Str :=
  str "<application><activity android:name=\"com.a.Child\"/></application>"

/-- Witness for C9: in a manifest whose `<application>` tag carries no
`android:name` but whose child `<activity>` does, the boundary at index 13
cuts the scan and no Application class is reported. -/
theorem extractApplicationName_scoped_witness :
    extractApplicationName mChild = none := by
  have h := extractApplicationName_scoped mChild 0 13 (by decide) (by decide)
    (by decide)
  rw [h]
  decide

/-! ## C10 — default/reference application names are filtered out -/

/-- C10: when the first `android:name` found in the `<application>` tag's
attribute region starts with `@` or `android.`, or equals `true` or `false`,
the analyzer reports no Application class, and consequently the planner never
chooses the ApplicationHook strategy for such a package — it proceeds down
the ManifestSynthesis path (binary or textual) whenever one of the two
manifest patches is available. -/
theorem extractApplicationName_excludes :
    (∀ content area n, appNameArea content = some area →
      firstAttr nameLit area = some n → excludedName n = true →
      extractApplicationName content = none)
    ∧ (∀ (e : InjectEnv) (pkg : Str), pkgOf e = some pkg →
        extractApplicationName (contentOf e) = none →
        (∀ t, injectHookCodePlan e ≠ .applicationHook t
          ∧ injectHookCodePlan e ≠ .errLocateClass t)
        ∧ (binaryPatchOk e = true ∨ textPatchOk e = true →
            injectHookCodePlan e = .manifestSynthBinary
            ∨ injectHookCodePlan e = .manifestSynthText)) := by
  constructor
  · intro content area n harea hattr hexcl
    unfold extractApplicationName
    rw [harea]
    dsimp only
    rw [hattr]
    dsimp only
    rw [hexcl]
    rfl
  · intro e pkg hpkg hx
    constructor
    · intro t
      unfold injectHookCodePlan
      rw [hpkg, hx]
      cases hbin : binaryPatchOk e
      · cases htext : textPatchOk e
        · match hla : findLaunchActivity (contentOf e) with
          | some la =>
            cases hsm : e.launchSmaliFound <;> cases hok : e.fallbackInjectOk <;>
              simp [hsm, hok]
          | none => simp
        · simp
      · simp
    · intro hor
      unfold injectHookCodePlan
      rw [hpkg, hx]
      rcases hor with hb | ht
      · left; simp [hb]
      · cases hbin : binaryPatchOk e
        · right; simp [ht]
        · left; simp [hbin]

/-- Manifest declaring the framework class `android.app.Application`. -/
def mExcl : Str :=
  str "<application android:name=\"android.app.Application\"></application>"

/-- Planner environment for the C10 witness: the excluded-name manifest with
the binary manifest editor available. -/
def injEnvExcl : InjectEnv :=
  { injEnvBase with manifestText := mExcl, manifestEditorExists := true, unzipManifestOk := true, manifestEditorOk := true, editorOutputExists := true }

/-- Witness for C10: `android.app.Application` as the declared name yields no
Application class, and the planner takes a ManifestSynthesis branch. -/
theorem extractApplicationName_excludes_witness :
    extractApplicationName mExcl = none
    ∧ (injectHookCodePlan injEnvExcl = .manifestSynthBinary
        ∨ injectHookCodePlan injEnvExcl = .manifestSynthText) := by
  constructor
  · exact extractApplicationName_excludes.1 mExcl ((mExcl.drop 0).take 52)
      (str "android.app.Application") (by decide) (by decide) (by decide)
  · exact (extractApplicationName_excludes.2 injEnvExcl (str "com.a")
      (by decide) (by decide)).2 (Or.inl (by decide))

/-! ## C5 — merge touches only dex entries and the manifest -/

theorem zipGet_zipUpdate (z : Zip) (n : Str) (c : List Nat) (m : Str) :
    zipGet (zipUpdate z n c) m = if m = n then some c else zipGet z m := by
  induction z with
  | nil =>
    by_cases h : m = n
    · subst h; simp [zipUpdate, zipGet]
    · simp only [zipUpdate, zipGet]
      rw [if_neg (fun hh : n = m => h hh.symm), if_neg h]
  | cons kv rest ih =>
    obtain ⟨k, v⟩ := kv
    by_cases hk : k = n
    · subst hk
      simp only [zipUpdate, if_pos rfl, zipGet]
      by_cases hm : k = m
      · subst hm
        rw [if_pos rfl, if_pos rfl]
      · rw [if_neg hm, if_neg (fun hh : m = k => hm hh.symm), if_neg hm]
    · simp only [zipUpdate, if_neg hk, zipGet]
      by_cases hm : k = m
      · subst hm
        rw [if_pos rfl, if_neg hk, if_pos rfl]
      · rw [if_neg hm, ih, if_neg hm]

theorem mem_zipUpdate (z : Zip) (n : Str) (c : List Nat) :
    ∀ e ∈ zipUpdate z n c, e ∈ z ∨ e = (n, c) := by
  induction z with
  | nil => intro e he; simp only [zipUpdate] at he; right; simpa using he
  | cons kv rest ih =>
    obtain ⟨k, v⟩ := kv
    intro e he
    unfold zipUpdate at he
    by_cases hk : k = n
    · rw [if_pos hk] at he
      rcases List.mem_cons.mp he with h | h
      · right; rw [h, hk]
      · left; exact List.mem_cons_of_mem _ h
    · rw [if_neg hk] at he
      rcases List.mem_cons.mp he with h | h
      · left; rw [h]; exact List.mem_cons_self _ _
      · rcases ih e h with h' | h'
        · left; exact List.mem_cons_of_mem _ h'
        · right; exact h'

theorem mem_zipUpdate_of_ne (z : Zip) (n : Str) (c : List Nat) (m : Str)
    (v : List Nat) (h : (m, v) ∈ z) (hne : m ≠ n) : (m, v) ∈ zipUpdate z n c := by
  induction z with
  | nil => cases h
  | cons kv rest ih =>
    obtain ⟨k, w⟩ := kv
    unfold zipUpdate
    rcases List.mem_cons.mp h with h' | h'
    · obtain ⟨h1, h2⟩ := Prod.mk.injEq .. ▸ h'
      subst h1; subst h2
      rw [if_neg hne]
      exact List.mem_cons_self _ _
    · by_cases hk : k = n
      · rw [if_pos hk]; exact List.mem_cons_of_mem _ h'
      · rw [if_neg hk]; exact List.mem_cons_of_mem _ (ih h')

theorem mem_zipUpdate_self (z : Zip) (n : Str) (c : List Nat) :
    (n, c) ∈ zipUpdate z n c := by
  induction z with
  | nil => simp [zipUpdate]
  | cons kv rest ih =>
    obtain ⟨k, v⟩ := kv
    unfold zipUpdate
    by_cases hk : k = n
    · subst hk; simp
    · rw [if_neg hk]
      exact List.mem_cons_of_mem _ ih

theorem zipGet_foldl_frame (l : List ZipEntry) (acc : Zip) (m : Str)
    (h : ∀ e ∈ l, e.1 ≠ m) :
    zipGet (l.foldl (fun acc en => zipUpdate acc en.1 en.2) acc) m
      = zipGet acc m := by
  induction l generalizing acc with
  | nil => rfl
  | cons x t ih =>
    rw [List.foldl_cons]
    rw [ih _ (fun e he => h e (List.mem_cons_of_mem _ he))]
    rw [zipGet_zipUpdate]
    rw [if_neg (fun hh : m = x.1 => h x (List.mem_cons_self _ _) hh.symm)]

theorem zipGet_foldl_unique (l : List ZipEntry) (m : Str) (v : List Nat)
    (hmem : (m, v) ∈ l) (huniq : ∀ w, (m, w) ∈ l → w = v) :
    ∀ acc : Zip,
      zipGet (l.foldl (fun acc en => zipUpdate acc en.1 en.2) acc) m
        = some v := by
  induction l with
  | nil => cases hmem
  | cons x t ih =>
    intro acc
    rw [List.foldl_cons]
    by_cases hx : ∃ w, (m, w) ∈ t
    · rcases hx with ⟨w, hw⟩
      have hwv : w = v := huniq w (List.mem_cons_of_mem _ hw)
      subst hwv
      exact ih hw (fun u hu => huniq u (List.mem_cons_of_mem _ hu)) _
    · have hxh : x = (m, v) := by
        rcases List.mem_cons.mp hmem with h | h
        · exact h.symm
        · exact absurd ⟨v, h⟩ hx
      subst hxh
      rw [zipGet_foldl_frame]
      · rw [zipGet_zipUpdate]
        simp
      · intro e he hne
        refine hx ⟨e.2, ?_⟩
        have he' : (e.1, e.2) ∈ t := by simpa using he
        rw [hne] at he'
        exact he'

/-- C5: the merge step bases the final artifact on the original container;
every entry that is not a regenerated `classes*.dex` partition — and, unless
the manifest was changed, the manifest entry too — is byte-identical between
the original container and the merge result; dex entries present in the
freshly built container are taken from it, and a changed binary manifest
replaces the manifest entry. -/
theorem mergeDexIntoOriginalApk_frame (orig build : Zip) (um : Bool)
    (bm : Option (List Nat)) :
    (∀ m, globClassesDex m = false → (um = false ∨ m ≠ manifestEntryName) →
      zipGet (mergeDexIntoOriginalApk orig build um bm) m = zipGet orig m)
    ∧ (∀ m v, globClassesDex m = true → (m, v) ∈ build →
        (∀ w, (m, w) ∈ build → w = v) →
        zipGet (mergeDexIntoOriginalApk orig build um bm) m = some v)
    ∧ (∀ b, um = true → bm = some b →
        zipGet (mergeDexIntoOriginalApk orig build um bm) manifestEntryName
          = some b) := by
  have hmanifestGlob : globClassesDex manifestEntryName = false := by decide
  refine ⟨?_, ?_, ?_⟩
  · intro m hglob hcase
    unfold mergeDexIntoOriginalApk
    apply zipGet_foldl_frame
    intro e he hem
    subst hem
    have hdex : ∀ e' : ZipEntry,
        e' ∈ build.filter (fun en => globClassesDex en.1) → e'.1 ≠ e.1 := by
      intro e' he' h1
      have := (List.mem_filter.mp he').2
      rw [h1, hglob] at this
      cases this
    rcases hcase with hum | hm
    · rw [hum] at he
      exact hdex e he rfl
    · revert he
      split
      · split
        · intro he
          rcases mem_zipUpdate _ _ _ e he with h' | h'
          · exact hdex e h' rfl
          · exact hm (by rw [h'])
        · split
          · intro he
            rcases mem_zipUpdate _ _ _ e he with h' | h'
            · exact hdex e h' rfl
            · exact hm (by rw [h'])
          · intro he
            exact hdex e he rfl
      · intro he
        exact hdex e he rfl
  · intro m v hglob hmem huniq
    have hmm : m ≠ manifestEntryName := by
      intro h
      rw [h, hmanifestGlob] at hglob
      cases hglob
    have hdexmem : (m, v) ∈ build.filter (fun en => globClassesDex en.1) :=
      List.mem_filter.mpr ⟨hmem, hglob⟩
    have hdexuniq : ∀ w, (m, w) ∈ build.filter (fun en => globClassesDex en.1) →
        w = v := fun w hw => huniq w (List.mem_filter.mp hw).1
    unfold mergeDexIntoOriginalApk
    split
    · split
      · refine zipGet_foldl_unique _ m v (mem_zipUpdate_of_ne _ _ _ _ _ hdexmem hmm) ?_ _
        intro w hw
        rcases mem_zipUpdate _ _ _ _ hw with h' | h'
        · exact hdexuniq w h'
        · exact absurd (congrArg Prod.fst h') hmm
      · split
        · refine zipGet_foldl_unique _ m v
            (mem_zipUpdate_of_ne _ _ _ _ _ hdexmem hmm) ?_ _
          intro w hw
          rcases mem_zipUpdate _ _ _ _ hw with h' | h'
          · exact hdexuniq w h'
          · exact absurd (congrArg Prod.fst h') hmm
        · exact zipGet_foldl_unique _ m v hdexmem hdexuniq _
    · exact zipGet_foldl_unique _ m v hdexmem hdexuniq _
  · intro b hum hbm
    subst hum
    subst hbm
    unfold mergeDexIntoOriginalApk
    have hnotin : ∀ w, (manifestEntryName, w) ∈
        build.filter (fun en => globClassesDex en.1) → False := by
      intro w hw
      have := (List.mem_filter.mp hw).2
      rw [hmanifestGlob] at this
      cases this
    refine zipGet_foldl_unique _ _ b (by simp only; exact mem_zipUpdate_self _ _ _) ?_ _
    intro w hw
    simp only at hw
    rcases mem_zipUpdate _ _ _ _ hw with h' | h'
    · exact absurd h' (hnotin w)
    · exact (Prod.mk.injEq .. ▸ h').2

/-- Original container for the C5 witness. -/
def origZip : Zip :=
  [(str "res/a", [1]), (str "classes.dex", [2]),
   (str "AndroidManifest.xml", [3])]

/-- Freshly recompiled container for the C5 witness. -/
def buildZip : Zip :=
  [(str "classes.dex", [9]), (str "classes2.dex", [8]),
   (str "AndroidManifest.xml", [7])]

/-- Witness for C5: merging `buildZip` into `origZip` with a changed binary
manifest keeps the unrelated resource entry byte-identical, takes the dex
partitions from the build, and installs the patched manifest. -/
theorem mergeDexIntoOriginalApk_frame_witness :
    zipGet (mergeDexIntoOriginalApk origZip buildZip true (some [5]))
        (str "res/a") = some [1]
    ∧ zipGet (mergeDexIntoOriginalApk origZip buildZip true (some [5]))
        (str "classes.dex") = some [9]
    ∧ zipGet (mergeDexIntoOriginalApk origZip buildZip true (some [5]))
        manifestEntryName = some [5] := by
  refine ⟨?_, ?_, ?_⟩
  · exact (mergeDexIntoOriginalApk_frame origZip buildZip true (some [5])).1
      (str "res/a") (by decide) (Or.inr (by decide))
  · refine (mergeDexIntoOriginalApk_frame origZip buildZip true (some [5])).2.1
      (str "classes.dex") [9] (by decide) (by decide) ?_
    intro w hw
    unfold buildZip at hw
    rcases List.mem_cons.mp hw with h | h
    · simpa using congrArg Prod.snd h
    · rcases List.mem_cons.mp h with h' | h'
      · have hh : str "classes.dex" = str "classes2.dex" :=
          congrArg Prod.fst h'
        exact absurd hh (by decide)
      · rcases List.mem_cons.mp h' with h'' | h''
        · have hh : str "classes.dex" = str "AndroidManifest.xml" :=
            congrArg Prod.fst h''
          exact absurd hh (by decide)
        · cases h''
  · exact (mergeDexIntoOriginalApk_frame origZip buildZip true (some [5])).2.2
      [5] rfl rfl

/-! ## C6 / C7 — pipeline result totality and temporary-directory lifecycle -/

theorem injectAndResign_result_cases (env : PipeEnv) (apkPath seed : Str) :
    ((injectAndResignApk env apkPath seed).1
        = { success := true, message := msgInjectSignOk,
            outputPath := some (outputApkPath apkPath) }
      ∧ (injectAndResignApk env apkPath seed).2.outputWritten = true)
    ∨ ∃ e, (injectAndResignApk env apkPath seed).1
        = { success := false, message := failPre ++ e, outputPath := none }
      ∧ (injectAndResignApk env apkPath seed).2.outputWritten = false := by
  unfold injectAndResignApk pipeFail
  cases hd : env.decompileErr with
  | some e => exact Or.inr ⟨e, rfl, rfl⟩
  | none =>
  cases hi : injectExceptOf (injectHookCodePlan env.inj) with
  | error e => exact Or.inr ⟨e, rfl, rfl⟩
  | ok p =>
  cases hb : env.buildErr with
  | some e => exact Or.inr ⟨e, rfl, rfl⟩
  | none =>
  cases hm : env.mergeErr with
  | some e => exact Or.inr ⟨e, rfl, rfl⟩
  | none =>
  cases hz : (if env.zipalignExists then env.zipalignErr else none) with
  | some e => exact Or.inr ⟨e, rfl, rfl⟩
  | none =>
  cases hs : env.signFail with
  | some m => exact Or.inr ⟨m, rfl, rfl⟩
  | none =>
  cases hf : env.signedFileExists with
  | true => exact Or.inl ⟨rfl, rfl⟩
  | false => exact Or.inr ⟨msgNoSignedFile, rfl, rfl⟩

theorem injectAndResign_trace_cases (env : PipeEnv) (apkPath seed : Str) :
    ((injectAndResignApk env apkPath seed).2.createdDirs = [mainDir seed]
      ∧ (injectAndResignApk env apkPath seed).2.removedDirs = [mainDir seed])
    ∨ ((injectAndResignApk env apkPath seed).2.createdDirs
          = mainDir seed :: injectStepDirs env.inj seed
      ∧ (injectAndResignApk env apkPath seed).2.removedDirs = [mainDir seed])
    ∨ ((injectAndResignApk env apkPath seed).2.createdDirs
          = fullCreated env seed
      ∧ (injectAndResignApk env apkPath seed).2.removedDirs
          = [dmergeDir seed, mainDir seed]) := by
  unfold injectAndResignApk pipeFail
  cases hd : env.decompileErr with
  | some e => exact Or.inl ⟨rfl, rfl⟩
  | none =>
  cases hi : injectExceptOf (injectHookCodePlan env.inj) with
  | error e => exact Or.inr (Or.inl ⟨rfl, rfl⟩)
  | ok p =>
  cases hb : env.buildErr with
  | some e => exact Or.inr (Or.inl ⟨rfl, rfl⟩)
  | none =>
  cases hm : env.mergeErr with
  | some e => exact Or.inr (Or.inr ⟨rfl, rfl⟩)
  | none =>
  cases hz : (if env.zipalignExists then env.zipalignErr else none) with
  | some e => exact Or.inr (Or.inr ⟨rfl, rfl⟩)
  | none =>
  cases hs : env.signFail with
  | some m => exact Or.inr (Or.inr ⟨rfl, rfl⟩)
  | none =>
  cases hf : env.signedFileExists with
  | true => exact Or.inr (Or.inr ⟨rfl, rfl⟩)
  | false => exact Or.inr (Or.inr ⟨rfl, rfl⟩)

theorem injectStepDirs_sub (e : InjectEnv) (seed : Str) :
    ∀ d ∈ injectStepDirs e seed, d = meditDir seed := by
  unfold injectStepDirs
  cases hp : pkgOf e with
  | none => intro d hd; exact absurd hd (List.not_mem_nil d)
  | some p =>
    cases hx : extractApplicationName (contentOf e) with
    | some a => intro d hd; exact absurd hd (List.not_mem_nil d)
    | none =>
      cases hme : e.manifestEditorExists with
      | true => intro d hd; exact List.mem_singleton.mp hd
      | false => intro d hd; exact absurd hd (List.not_mem_nil d)

theorem created_mem_shape (env : PipeEnv) (apkPath seed : Str) :
    ∀ d ∈ (injectAndResignApk env apkPath seed).2.createdDirs,
      d = mainDir seed ∨ d = meditDir seed ∨ d = dmergeDir seed := by
  intro d hd
  rcases injectAndResign_trace_cases env apkPath seed with ⟨hc, _⟩ | ⟨hc, _⟩ | ⟨hc, _⟩ <;>
    rw [hc] at hd
  · left; simpa using hd
  · rcases List.mem_cons.mp hd with h | h
    · left; exact h
    · right; left; exact injectStepDirs_sub env.inj seed d h
  · unfold fullCreated at hd
    rcases List.mem_append.mp hd with h | h
    · rcases List.mem_append.mp h with h' | h'
      · left; simpa using h'
      · right; left; exact injectStepDirs_sub env.inj seed d h'
    · right; right; simpa using h

theorem mainDir_head (s : Str) : (mainDir s).head? = some 97 := rfl

theorem meditDir_head (s : Str) : (meditDir s).head? = some 109 := rfl

theorem dmergeDir_head (s : Str) : (dmergeDir s).head? = some 100 := rfl

theorem mainDir_ne_meditDir (s t : Str) : mainDir s ≠ meditDir t := by
  intro h
  have h1 := (mainDir_head s).symm.trans
    ((congrArg List.head? h).trans (meditDir_head t))
  exact absurd h1 (by decide)

theorem mainDir_ne_dmergeDir (s t : Str) : mainDir s ≠ dmergeDir t := by
  intro h
  have h1 := (mainDir_head s).symm.trans
    ((congrArg List.head? h).trans (dmergeDir_head t))
  exact absurd h1 (by decide)

theorem meditDir_ne_dmergeDir (s t : Str) : meditDir s ≠ dmergeDir t := by
  intro h
  have h1 := (meditDir_head s).symm.trans
    ((congrArg List.head? h).trans (dmergeDir_head t))
  exact absurd h1 (by decide)

theorem mainDir_inj (s t : Str) (h : mainDir s = mainDir t) : s = t := by
  have h1 := congrArg (List.drop apkInjectPre.length) h
  simpa [mainDir, List.drop_left] using h1

theorem meditDir_inj (s t : Str) (h : meditDir s = meditDir t) : s = t := by
  have h1 := congrArg (List.drop manifestEditPre.length) h
  simpa [meditDir, List.drop_left] using h1

theorem dmergeDir_inj (s t : Str) (h : dmergeDir s = dmergeDir t) : s = t := by
  have h1 := congrArg (List.drop dexMergePre.length) h
  simpa [dmergeDir, List.drop_left] using h1

/-- C6: the pipeline result is never partially populated — on success it
carries `success = true`, the success message, and the expected output path,
which has been written; on any stage failure it carries `success = false`
with the failing stage's error text behind the failure prefix, no output
path, and nothing has been written at the expected output path. -/
theorem injectAndResignApk_result_total (env : PipeEnv) (apkPath seed : Str) :
    ((injectAndResignApk env apkPath seed).1.success = true →
      (injectAndResignApk env apkPath seed).1.outputPath
          = some (outputApkPath apkPath)
        ∧ (injectAndResignApk env apkPath seed).2.outputWritten = true
        ∧ (injectAndResignApk env apkPath seed).1.message = msgInjectSignOk)
    ∧ ((injectAndResignApk env apkPath seed).1.success = false →
      (injectAndResignApk env apkPath seed).1.outputPath = none
        ∧ (injectAndResignApk env apkPath seed).2.outputWritten = false
        ∧ ∃ e, (injectAndResignApk env apkPath seed).1.message
            = failPre ++ e) := by
  rcases injectAndResign_result_cases env apkPath seed with ⟨h1, h2⟩ | ⟨e, h1, h2⟩
  · constructor
    · intro _
      rw [h1]
      exact ⟨rfl, h2, rfl⟩
    · intro hf
      rw [h1] at hf
      simp at hf
  · constructor
    · intro hs
      rw [h1] at hs
      simp at hs
    · intro _
      rw [h1]
      exact ⟨rfl, h2, e, rfl⟩

/-- Signature environment of the end-to-end witnesses (reader absent, so the
extraction degrades to the sentinel without aborting the pipeline). -/
def sigEnvAny : SigEnv :=
  { apkSigReaderExists := false
    apkSigStdout := none
    unzipListOut := none
    unzipExtractOk := false
    certBytes := [] }

/-- A fully successful pipeline environment: every stage succeeds, the
injection taking the binary ManifestSynthesis path. -/
def pipeEnvOk : PipeEnv :=
  { sig := sigEnvAny
    inj := injEnvBin
    decompileErr := none
    buildErr := none
    mergeErr := none
    zipalignExists := true
    zipalignErr := none
    signFail := none
    signedFileExists := true }

/-- The same environment with a failing decompile stage. -/
def pipeEnvFail : PipeEnv := { pipeEnvOk with decompileErr := some (str "boom") }

/-- Witness for C6: the successful run yields the expected output path and
writes it; the failing run yields no path and writes nothing. -/
theorem injectAndResignApk_result_total_witness :
    (injectAndResignApk pipeEnvOk (str "app.apk") (str "1")).1.outputPath
        = some (str "app_hooked_signed.apk")
    ∧ (injectAndResignApk pipeEnvOk (str "app.apk") (str "1")).2.outputWritten
        = true
    ∧ (injectAndResignApk pipeEnvFail (str "app.apk") (str "1")).1.outputPath
        = none
    ∧ (injectAndResignApk pipeEnvFail (str "app.apk") (str "1")).2.outputWritten
        = false := by
  have hok := (injectAndResignApk_result_total pipeEnvOk (str "app.apk")
    (str "1")).1 (by decide)
  have hfail := (injectAndResignApk_result_total pipeEnvFail (str "app.apk")
    (str "1")).2 (by decide)
  refine ⟨?_, hok.2.1, hfail.1, hfail.2.1⟩
  rw [hok.1]
  decide

/-- Counterexample to C7: in a successful run that used the binary manifest
patch, the `manifest-edit-` scratch directory is created but is absent from
the removed directories — a temporary directory the job creates survives the
job, so "every temporary directory the job creates is deleted on all exit
paths" fails on the code. -/
theorem injectAndResignApk_tempdirs_cex :
    meditDir (str "1")
        ∈ (injectAndResignApk pipeEnvOk (str "app.apk") (str "1")).2.createdDirs
    ∧ meditDir (str "1")
        ∉ (injectAndResignApk pipeEnvOk (str "app.apk") (str "1")).2.removedDirs
      := by decide

/-- C7 (amended): each job's uniquely named main working directory is removed
on every exit path, success or failure, and so is the dex-merge scratch
directory whenever it was created; jobs with distinct `mkdtemp` suffixes never
share a directory; but the scratch directory created for binary manifest
editing is never removed by the run. -/
theorem injectAndResignApk_tempdirs (env : PipeEnv) (apkPath seed : Str) :
    mainDir seed ∈ (injectAndResignApk env apkPath seed).2.removedDirs
    ∧ (dmergeDir seed ∈ (injectAndResignApk env apkPath seed).2.createdDirs →
        dmergeDir seed ∈ (injectAndResignApk env apkPath seed).2.removedDirs)
    ∧ (meditDir seed ∈ (injectAndResignApk env apkPath seed).2.createdDirs →
        meditDir seed ∉ (injectAndResignApk env apkPath seed).2.removedDirs)
    ∧ (∀ (env2 : PipeEnv) (ap2 seed2 : Str), seed ≠ seed2 →
        ∀ d, d ∈ (injectAndResignApk env apkPath seed).2.createdDirs →
          d ∉ (injectAndResignApk env2 ap2 seed2).2.createdDirs) := by
  refine ⟨?_, ?_, ?_, ?_⟩
  · rcases injectAndResign_trace_cases env apkPath seed with ⟨_, hr⟩ | ⟨_, hr⟩ | ⟨_, hr⟩ <;>
      rw [hr] <;> simp
  · intro hc
    rcases injectAndResign_trace_cases env apkPath seed with ⟨hcr, hr⟩ | ⟨hcr, hr⟩ | ⟨hcr, hr⟩
    · rw [hcr] at hc
      exact absurd (List.mem_singleton.mp hc).symm (mainDir_ne_dmergeDir seed seed)
    · rw [hcr] at hc
      rcases List.mem_cons.mp hc with h | h
      · exact absurd h.symm (mainDir_ne_dmergeDir seed seed)
      · exact absurd (injectStepDirs_sub env.inj seed _ h).symm
          (meditDir_ne_dmergeDir seed seed)
    · rw [hr]; simp
  · intro hc hr'
    rcases injectAndResign_trace_cases env apkPath seed with ⟨hcr, hr⟩ | ⟨hcr, hr⟩ | ⟨hcr, hr⟩ <;>
      rw [hr] at hr'
    · exact absurd (List.mem_singleton.mp hr') (Ne.symm (mainDir_ne_meditDir seed seed))
    · exact absurd (List.mem_singleton.mp hr') (Ne.symm (mainDir_ne_meditDir seed seed))
    · rcases List.mem_cons.mp hr' with h | h
      · exact absurd h (meditDir_ne_dmergeDir seed seed)
      · exact absurd (List.mem_singleton.mp h) (Ne.symm (mainDir_ne_meditDir seed seed))
  · intro env2 ap2 seed2 hne d hd1 hd2
    rcases created_mem_shape env apkPath seed d hd1 with h1 | h1 | h1 <;>
      rcases created_mem_shape env2 ap2 seed2 d hd2 with h2 | h2 | h2 <;>
      rw [h1] at h2
    · exact hne (mainDir_inj seed seed2 h2)
    · exact mainDir_ne_meditDir seed seed2 h2
    · exact mainDir_ne_dmergeDir seed seed2 h2
    · exact mainDir_ne_meditDir seed2 seed h2.symm
    · exact hne (meditDir_inj seed seed2 h2)
    · exact meditDir_ne_dmergeDir seed seed2 h2
    · exact mainDir_ne_dmergeDir seed2 seed h2.symm
    · exact meditDir_ne_dmergeDir seed2 seed h2.symm
    · exact hne (dmergeDir_inj seed seed2 h2)

/-- Witness for C7 (amended): in the concrete successful run the main
directory is removed, the created dex-merge directory is removed, and no
directory of the run is shared with a run seeded differently. -/
theorem injectAndResignApk_tempdirs_witness :
    dmergeDir (str "1")
        ∈ (injectAndResignApk pipeEnvOk (str "app.apk") (str "1")).2.removedDirs
    ∧ mainDir (str "1")
        ∉ (injectAndResignApk pipeEnvOk (str "x.apk") (str "2")).2.createdDirs := by
  constructor
  · exact (injectAndResignApk_tempdirs pipeEnvOk (str "app.apk") (str "1")).2.1
      (by decide)
  · exact (injectAndResignApk_tempdirs pipeEnvOk (str "app.apk") (str "1")).2.2.2
      pipeEnvOk (str "x.apk") (str "2") (by decide) (mainDir (str "1"))
      (by decide)

/-! ## C8 — output shape of signature extraction -/

/-- Counterexample to C8: when the external signing-block reader prints the
odd-length hex string `"abc"`, extraction passes it through unchanged — the
output is lower-case hex but its length is odd, so "always even length" fails
on the code. -/
theorem signature_hex_shape_cex :
    getOriginalSignature
        { apkSigReaderExists := true, apkSigStdout := some (str "abc"),
          unzipListOut := none, unzipExtractOk := false, certBytes := [] }
      = str "abc"
    ∧ (str "abc").length % 2 = 1
    ∧ (str "abc").all isLowerHexCode = true := by decide

/-- C8 (amended): the extraction output is always a non-empty lower-case hex
string (sentinel `"00"` included); the legacy-file reader's output and the
sentinel always have even length; and the signing-block path's output has
even length exactly when the reader's trimmed raw output does — an odd-length
reader output is passed through odd. -/
theorem signature_hex_shape (e : SigEnv) :
    (getOriginalSignature e).length ≠ 0
    ∧ (getOriginalSignature e).all isLowerHexCode = true
    ∧ (getCertRsaHex e).length % 2 = 0
    ∧ (getCertRsaHex e).all isLowerHexCode = true
    ∧ (∀ s, e.apkSigStdout = some s → (jsTrim s).length % 2 = 0 →
        (getOriginalSignature e).length % 2 = 0) := by
  have hsent1 : (str "00").length ≠ 0 := by decide
  have hsent2 : (str "00").all isLowerHexCode = true := by decide
  have hsent3 : (str "00").length % 2 = 0 := by decide
  have hmain : ∀ P : Str → Prop, P (str "00") →
      (∀ s, e.apkSigStdout = some s → jsTrim s ≠ [] →
        (jsTrim s).all isHexCode = true → P (strToLower (jsTrim s))) →
      P (getOriginalSignature e) := by
    intro P hP0 hPs
    unfold getOriginalSignature getCertHexUsingApkSig
    split
    · match hs : e.apkSigStdout with
      | some s =>
        dsimp only
        split
        · next hcond =>
          simp only [Bool.and_eq_true, decide_eq_true_eq] at hcond
          exact hPs s hs hcond.1 hcond.2
        · exact hP0
      | none => exact hP0
    · exact hP0
  refine ⟨?_, ?_, ?_, ?_, ?_⟩
  · refine hmain (fun r => r.length ≠ 0) hsent1 ?_
    intro s _ hne _
    unfold strToLower
    simpa using hne
  · refine hmain (fun r => r.all isLowerHexCode = true) hsent2 ?_
    intro s _ _ hall
    exact strToLower_all_lower _ hall
  · unfold getCertRsaHex
    split
    · exact hsent3
    · split
      · split
        · exact bytesToHex_even _
        · exact hsent3
      · exact hsent3
  · unfold getCertRsaHex
    split
    · exact hsent2
    · split
      · split
        · exact bytesToHex_all_lower _
        · exact hsent2
      · exact hsent2
  · intro s hs heven
    refine hmain (fun r => r.length % 2 = 0) hsent3 ?_
    intro s' hs' _ _
    rw [hs] at hs'
    cases hs'
    unfold strToLower
    simpa using heven

/-- Witness for C8 (amended) at concrete inputs: a reader printing the
even-length `"AB"` yields the even-length `"ab"`, and the sentinel case has
even length too. -/
theorem signature_hex_shape_witness :
    (getOriginalSignature
        { apkSigReaderExists := true, apkSigStdout := some (str "AB"),
          unzipListOut := none, unzipExtractOk := false, certBytes := [] }).length
        % 2 = 0
    ∧ (getCertRsaHex
        { apkSigReaderExists := true, apkSigStdout := some (str "AB"),
          unzipListOut := none, unzipExtractOk := false, certBytes := [] }).length
        % 2 = 0 := by
  constructor
  · exact (signature_hex_shape
      { apkSigReaderExists := true, apkSigStdout := some (str "AB"),
        unzipListOut := none, unzipExtractOk := false,
        certBytes := [] }).2.2.2.2 (str "AB") rfl (by decide)
  · exact (signature_hex_shape
      { apkSigReaderExists := true, apkSigStdout := some (str "AB"),
        unzipListOut := none, unzipExtractOk := false, certBytes := [] }).2.2.1

end MKTools
